import Mathlib

/-
Verification of the OpenClinical document-normalization core:
the Section Flattener (clean_medical_record in app.py) and the
Metadata Extractor (extract_metadata in build_db.py), shallowly
embedded over an explicit XML element-tree model mirroring
xml.etree.ElementTree.
-/

set_option maxRecDepth 4096

namespace OpenClinical

/-- Whitespace as recognized by the Python str.split and str.strip
defaults, restricted to the ASCII whitespace characters. -/
def pyIsSpace (c : Char) : Bool :=
  c = ' ' || c = '\t' || c = '\n' || c = '\r' || c = '\x0b' || c = '\x0c'

/-- Python str.strip with no arguments: drop whitespace from both ends. -/
def pyStrip (s : String) : String :=
  String.mk (((s.data.dropWhile pyIsSpace).reverse.dropWhile pyIsSpace).reverse)

/-- Python str.upper restricted to ASCII: uppercase each character. -/
def pyUpper (s : String) : String :=
  String.mk (s.data.map Char.toUpper)

/-- Helper for pyWords: walk the characters keeping the current word
reversed in an accumulator, closing it at each whitespace run. -/
def pyWordsAux (cur : List Char) : List Char → List (List Char)
  | [] => if cur.isEmpty then [] else [cur.reverse]
  | c :: cs =>
    if pyIsSpace c then
      if cur.isEmpty then pyWordsAux [] cs else cur.reverse :: pyWordsAux [] cs
    else pyWordsAux (c :: cur) cs

/-- Python str.split with no arguments: the maximal runs of
non-whitespace characters, in order, with no empty pieces. -/
def pyWords (l : List Char) : List (List Char) :=
  pyWordsAux [] l

/-- The whitespace normalization of app.py line 44: join the words of
the raw text with single spaces, as in Python " ".join(raw.split()). -/
def collapseWs (s : String) : String :=
  String.mk (List.intercalate [' '] (pyWords s.data))

/-- The suffix of the character list after its first right brace,
or none when no right brace occurs. -/
def afterFirstRBrace : List Char → Option (List Char)
  | [] => none
  | c :: cs => if c = '\x7d' then some cs else afterFirstRBrace cs

/-- Namespace stripping of a single tag, app.py lines 26 and 27:
when a right brace occurs in the tag, keep only the part after the
first one, as in Python tag.split with the brace and maxsplit 1. -/
def stripTag (t : String) : String :=
  match afterFirstRBrace t.data with
  | some cs => String.mk cs
  | none => t

mutual

/-- An element of the parsed tree, mirroring xml.etree.ElementTree
Element: tag, attributes, text before the first child, tail after the
closing tag, and the list of child elements. -/
inductive XElem : Type where
  | mk (tag : String) (attrs : List (String × String)) (text : Option String)
      (tail : Option String) (children : XForest)

/-- A list of sibling elements. -/
inductive XForest : Type where
  | nil
  | cons (head : XElem) (rest : XForest)

end

def XElem.tag : XElem → String
  | .mk t _ _ _ _ => t

def XElem.attrs : XElem → List (String × String)
  | .mk _ a _ _ _ => a

def XElem.text : XElem → Option String
  | .mk _ _ tx _ _ => tx

def XElem.tail : XElem → Option String
  | .mk _ _ _ tl _ => tl

def XElem.children : XElem → XForest
  | .mk _ _ _ _ cs => cs

mutual

/-- Namespace stripping over a whole tree, app.py lines 25 to 27:
the loop over root.iter rewrites every tag in the tree, the root
included. -/
def stripNsElem : XElem → XElem
  | .mk t a tx tl cs => .mk (stripTag t) a tx tl (stripNsForest cs)

def stripNsForest : XForest → XForest
  | .nil => .nil
  | .cons e f => .cons (stripNsElem e) (stripNsForest f)

end

mutual

/-- All proper descendants of the element carrying the given tag, in
document order, mirroring ElementTree findall with a descendant path:
the context element itself is never returned, and matching elements
are still searched inside. -/
def findAllElem (name : String) : XElem → List XElem
  | .mk _ _ _ _ cs => findAllForest name cs

def findAllForest (name : String) : XForest → List XElem
  | .nil => []
  | .cons e f =>
    (if e.tag = name then [e] else []) ++ findAllElem name e ++ findAllForest name f

end

/-- The first direct child carrying the given tag, mirroring
ElementTree find with a plain tag path. -/
def findChild (name : String) : XForest → Option XElem
  | .nil => none
  | .cons e f => if e.tag = name then some e else findChild name f

/-- All direct children carrying the given tag, in order, mirroring
ElementTree findall with a plain tag path. -/
def findChildren (name : String) : XForest → List XElem
  | .nil => []
  | .cons e f =>
    if e.tag = name then e :: findChildren name f else findChildren name f

mutual

/-- The concatenation of all text content under an element, mirroring
Element.itertext as used on app.py line 43: the element text, then
recursively each child followed by its tail. -/
def elemItertext : XElem → String
  | .mk _ _ tx _ cs => tx.getD "" ++ forestItertext cs

def forestItertext : XForest → String
  | .nil => ""
  | .cons e f => elemItertext e ++ e.tail.getD "" ++ forestItertext f

end

/-- The body of an emitted section block, app.py lines 40 to 44: the
collapsed recursive text of the direct text child when present, or the
literal substitute when the text child is absent. -/
def sectionBody (sec : XElem) : String :=
  match findChild "text" sec.children with
  | none => "No narrative text."
  | some tn => collapseWs (elemItertext tn)

/-- Handling of one section element, app.py lines 32 to 46: the block
emitted for it, or none when the section is skipped because its direct
title child is absent or has falsy text. -/
def processSection (sec : XElem) : Option String :=
  match findChild "title" sec.children with
  | none => none
  | some t =>
    match t.text with
    | none => none
    | some s =>
      if s = "" then none
      else some ("### " ++ pyStrip (pyUpper s) ++ "\n" ++ sectionBody sec ++ "\n")

/-- The flattening applied to an already namespace-stripped tree,
app.py lines 29 to 48. -/
def flattenStripped (root : XElem) : String :=
  let blocks := (findAllElem "section" root).filterMap processSection
  if blocks.isEmpty then "No structured clinical sections found."
  else String.intercalate "\n" blocks

/-- Flattening of a successfully parsed tree: strip namespaces over
the entire tree, then walk the sections. -/
def flattenTree (root : XElem) : String :=
  flattenStripped (stripNsElem root)

/-- An input value handed to clean_medical_record, together with the
outcome of the external XML parser (xml.etree.ElementTree.fromstring,
a library outside this repository) on it when the value is a string:
either the parsed tree or the parser error message caught on app.py
line 50. A non-string input carries the rendering of its Python type. -/
inductive PyInput : Type where
  | str (raw : String) (parsed : Except String XElem)
  | nonStr (typeName : String)

/-- The Section Flattener, clean_medical_record of app.py lines 12
to 51. -/
def clean_medical_record : PyInput → String
  | .nonStr ty =>
    "Error: Expected string data but got " ++ ty ++ ". Reload database."
  | .str _ (.error e) =>
    "PARSING ERROR: " ++ e ++ "\n(Returning raw XML might help debug)."
  | .str _ (.ok root) => flattenTree root

/-- A local name qualified by the hl7 v3 namespace, as the NAMESPACES
mapping of build_db.py line 12 expands the v3 prefix in find paths. -/
def v3 (local_name : String) : String :=
  "\x7burn:hl7-org:v3\x7d" ++ local_name

/-- Attribute lookup with a default, mirroring Python attrib.get. -/
def attribGet (e : XElem) (key dflt : String) : String :=
  match e.attrs.find? (fun kv => kv.1 == key) with
  | some kv => kv.2
  | none => dflt

/-- Birth date reformatting, build_db.py line 54: when the raw value
has at least 8 characters, hyphenate its first 8 as in the slices
raw up to 4, raw 4 to 6 and raw 6 to 8; otherwise pass it through. -/
def formatBirthValue (dob_raw : String) : String :=
  if 8 ≤ dob_raw.data.length then
    String.mk (dob_raw.data.take 4) ++ "-" ++
      String.mk ((dob_raw.data.drop 4).take 2) ++ "-" ++
      String.mk ((dob_raw.data.drop 6).take 2)
  else dob_raw

/-- The given-name fragments, build_db.py line 47: the text of each
direct given child of the name node, keeping only truthy texts. -/
def givenTexts (name_node : XElem) : List String :=
  (findChildren (v3 "given") name_node.children).filterMap fun g =>
    match g.text with
    | some s => if s = "" then none else some s
    | none => none

/-- The lookup of build_db.py line 36: the first patientRole child of
a recordTarget descendant, in document order, mirroring find with the
descendant path recordTarget slash patientRole. -/
def findRecordTargetPatientRole (root : XElem) : Option XElem :=
  (findAllElem (v3 "recordTarget") root).findSome? fun rt =>
    findChild (v3 "patientRole") rt.children

/-- The body of the try block of extract_metadata, build_db.py lines
35 to 60. Each dereference the Python code performs on a possibly
absent node is an Option bind: a none there is the AttributeError the
except clause catches. The id and gender lookups are guarded in the
source and so never fail. -/
def extract_metadata_inner (root : XElem) :
    Option (String × String × String × String) := do
  let patient_role ← findRecordTargetPatientRole root
  let pat_id :=
    match findChild (v3 "id") patient_role.children with
    | some id_node => attribGet id_node "extension" "Unknown"
    | none => "Unknown"
  let patient ← findChild (v3 "patient") patient_role.children
  let name_node ← findChild (v3 "name") patient.children
  let givens := givenTexts name_node
  let family_node ← findChild (v3 "family") name_node.children
  let family := family_node.text.getD ""
  let full_name := String.intercalate " " givens ++ " " ++ family
  let birth_node ← findChild (v3 "birthTime") patient.children
  let dob := formatBirthValue (attribGet birth_node "value" "")
  let gender :=
    match findChild (v3 "administrativeGenderCode") patient.children with
    | some g => attribGet g "displayName" "Unknown"
    | none => "Unknown"
  return (pat_id, full_name, dob, gender)

/-- The sentinel identity returned by the except clause of
build_db.py line 63. -/
def sentinelIdentity : String × String × String × String :=
  ("Unknown", "Parse Error", "Unknown", "Unknown")

/-- The Metadata Extractor, extract_metadata of build_db.py lines 32
to 63: the try body, with any AttributeError collapsed to the
sentinel identity. -/
def extract_metadata (root : XElem) : String × String × String × String :=
  (extract_metadata_inner root).getD sentinelIdentity

mutual

/-- Qualifying every tag of a tree with one namespace uri, written in
the brace-delimited convention the source strips. This is statement
scaffolding for the namespace-invariance claim: it expresses the same
local-name content placed under a given namespace binding. -/
def applyNsElem (uri : String) : XElem → XElem
  | .mk t a tx tl cs =>
    .mk ("\x7b" ++ uri ++ "\x7d" ++ t) a tx tl (applyNsForest uri cs)

def applyNsForest (uri : String) : XForest → XForest
  | .nil => .nil
  | .cons e f => .cons (applyNsElem uri e) (applyNsForest uri f)

end

mutual

/-- Every tag in the tree is a plain local name: no right brace. -/
def noBraceElem : XElem → Bool
  | .mk t _ _ _ cs => decide ('\x7d' ∉ t.data) && noBraceForest cs

def noBraceForest : XForest → Bool
  | .nil => true
  | .cons e f => noBraceElem e && noBraceForest f

end

/-- Shorthand for building an element with no attributes, no text and
no tail, used by the concrete example documents below. -/
def el (t : String) (cs : XForest) : XElem :=
  .mk t [] none none cs

/-- Shorthand for an element whose only content is its text. -/
def elT (t : String) (tx : String) : XElem :=
  .mk t [] (some tx) none .nil

/-- A singleton forest. -/
def one (e : XElem) : XForest := .cons e .nil

/-- A two-element forest. -/
def two (a b : XElem) : XForest := .cons a (.cons b .nil)

/-- A three-element forest. -/
def three (a b c : XElem) : XForest := .cons a (.cons b (.cons c .nil))

/-- A section whose only title sits one level below a wrapper child,
so it is not a direct child of the section. -/
def c3section : XElem :=
  el "section" (two (el "wrap" (one (elT "title" "X"))) (elT "text" "hello"))

/-- A document whose only section has its title nested under a
wrapper rather than as a direct child. -/
def c3doc : XElem := el "root" (one c3section)

/-- A section with a title but no text child. -/
def c6sec : XElem := el "section" (one (elT "title" "  Allergies "))

/-- A well-formed document with no section element anywhere. -/
def c7doc : XElem := el "ClinicalDocument" (one (elT "note" "hi"))

/-- A namespace-free document with one titled section whose narrative
holds nested inline markup. -/
def c8doc : XElem :=
  el "ClinicalDocument" (one (el "component" (one (el "section"
    (two (elT "title" "Medications") (el "text" (one (elT "content" "aspirin"))))))))

/-- A section whose text child holds only whitespace characters. -/
def c10sec : XElem :=
  el "section" (two (elT "title" "Vitals") (elT "text" "   \n\t "))

/-- A family element that is present but carries no text. -/
def adaFamily : XElem := .mk (v3 "family") [] none none .nil

/-- A birthTime element with a compact 8-digit value attribute. -/
def adaBirth : XElem := .mk (v3 "birthTime") [("value", "19850304")] none none .nil

/-- A name node with one given fragment and an empty family element. -/
def adaName : XElem := el (v3 "name") (two (elT (v3 "given") "Ada") adaFamily)

def adaPatient : XElem := el (v3 "patient") (two adaName adaBirth)

def adaPatientRole : XElem := el (v3 "patientRole") (one adaPatient)

/-- A namespaced document with a full identity path whose family
element is present but textless. -/
def adaDoc : XElem :=
  el (v3 "ClinicalDocument") (one (el (v3 "recordTarget") (one adaPatientRole)))

/-- A name node with one given fragment and no family element. -/
def cexName : XElem := el (v3 "name") (one (elT (v3 "given") "Ada"))

def cexPatient : XElem := el (v3 "patient") (two cexName adaBirth)

/-- A namespaced document whose identity path is complete except that
the name node has no family child. -/
def cexDoc : XElem :=
  el (v3 "ClinicalDocument")
    (one (el (v3 "recordTarget") (one (el (v3 "patientRole") (one cexPatient)))))

/-- A document with no recordTarget or patientRole subtree at all. -/
def c2doc : XElem := el "ClinicalDocument" XForest.nil

lemma afterFirstRBrace_of_no_brace :
    ∀ l : List Char, (∀ c ∈ l, c ≠ '\x7d') → afterFirstRBrace l = none := by
  intro l h
  induction l with
  | nil => rfl
  | cons c cs ih =>
    have hc : c ≠ '\x7d' := h c (List.mem_cons_self ..)
    simp only [afterFirstRBrace, hc, if_false]
    exact ih fun d hd => h d (List.mem_cons_of_mem _ hd)

lemma afterFirstRBrace_marker :
    ∀ (u t : List Char), (∀ c ∈ u, c ≠ '\x7d') →
      afterFirstRBrace (u ++ '\x7d' :: t) = some t := by
  intro u t h
  induction u with
  | nil => simp [afterFirstRBrace]
  | cons c cs ih =>
    have hc : c ≠ '\x7d' := h c (List.mem_cons_self ..)
    simp only [List.cons_append, afterFirstRBrace, hc, if_false]
    exact ih fun d hd => h d (List.mem_cons_of_mem _ hd)

lemma stripTag_of_no_brace (t : String) (h : '\x7d' ∉ t.data) :
    stripTag t = t := by
  unfold stripTag
  rw [afterFirstRBrace_of_no_brace t.data (fun c hc => by rintro rfl; exact h hc)]

lemma stripTag_ns (u : String) (hu : '\x7d' ∉ u.data) (t : String) :
    stripTag ("\x7b" ++ u ++ "\x7d" ++ t) = t := by
  unfold stripTag
  have hdata : ("\x7b" ++ u ++ "\x7d" ++ t).data =
      ('\x7b' :: u.data) ++ '\x7d' :: t.data := by
    simp [String.data_append]
  rw [hdata, afterFirstRBrace_marker]
  intro c hc
  rcases List.mem_cons.mp hc with rfl | hm
  · decide
  · rintro rfl; exact hu hm

mutual

lemma stripNs_applyNs_elem (u : String) (hu : '\x7d' ∉ u.data) :
    ∀ e : XElem, stripNsElem (applyNsElem u e) = e
  | .mk t a tx tl cs => by
    simp only [applyNsElem, stripNsElem, stripTag_ns u hu t,
      stripNs_applyNs_forest u hu cs]

lemma stripNs_applyNs_forest (u : String) (hu : '\x7d' ∉ u.data) :
    ∀ f : XForest, stripNsForest (applyNsForest u f) = f
  | .nil => rfl
  | .cons e f => by
    simp only [applyNsForest, stripNsForest, stripNs_applyNs_elem u hu e,
      stripNs_applyNs_forest u hu f]

end

mutual

lemma stripNs_id_elem : ∀ e : XElem, noBraceElem e = true → stripNsElem e = e
  | .mk t a tx tl cs, h => by
    rw [noBraceElem, Bool.and_eq_true, decide_eq_true_eq] at h
    simp only [stripNsElem, stripTag_of_no_brace t h.1, stripNs_id_forest cs h.2]

lemma stripNs_id_forest : ∀ f : XForest, noBraceForest f = true → stripNsForest f = f
  | .nil, _ => rfl
  | .cons e f, h => by
    rw [noBraceForest, Bool.and_eq_true] at h
    simp only [stripNsForest, stripNs_id_elem e h.1, stripNs_id_forest f h.2]

end

lemma pyWords_of_all_space :
    ∀ l : List Char, (∀ c ∈ l, pyIsSpace c = true) → pyWords l = [] := by
  intro l h
  unfold pyWords
  induction l with
  | nil => rfl
  | cons c cs ih =>
    rw [pyWordsAux]
    simp only [h c (List.mem_cons_self ..), if_true, List.isEmpty_nil]
    exact ih fun d hd => h d (List.mem_cons_of_mem _ hd)

lemma collapseWs_of_all_space (s : String)
    (h : ∀ c ∈ s.data, pyIsSpace c = true) : collapseWs s = "" := by
  unfold collapseWs
  rw [pyWords_of_all_space s.data h]
  rfl

lemma parse_error_ne_sentinel (e : String) :
    "PARSING ERROR: " ++ e ++ "\n(Returning raw XML might help debug)." ≠
      "No structured clinical sections found." := by
  intro h
  have hl := congrArg String.length h
  rw [String.length_append, String.length_append] at hl
  have h1 : ("PARSING ERROR: " : String).length = 15 := rfl
  have h2 : ("\n(Returning raw XML might help debug)." : String).length = 38 := rfl
  have h3 : ("No structured clinical sections found." : String).length = 38 := rfl
  omega

/-- C1: the Section Flattener is total and boundary-safe: a non-string
input yields the descriptive error string naming the input type, and a
parse failure yields the diagnostic string embedding the parser error
detail; in every case a string is returned, never a fault. -/
theorem clean_medical_record_boundary (ty raw err : String) :
    clean_medical_record (.nonStr ty) =
      "Error: Expected string data but got " ++ ty ++ ". Reload database." ∧
    clean_medical_record (.str raw (.error err)) =
      "PARSING ERROR: " ++ err ++ "\n(Returning raw XML might help debug)." :=
  ⟨rfl, rfl⟩

/-- C9: flattening is deterministic: two calls of clean_medical_record
on identical input yield identical output, the embedded transform
being a pure function of its input. -/
theorem clean_medical_record_deterministic (a b : PyInput) (h : a = b) :
    clean_medical_record a = clean_medical_record b :=
  congrArg clean_medical_record h

/-- Witness for C9 at a concrete input. -/
theorem clean_medical_record_deterministic_witness :
    clean_medical_record (.nonStr "list") = clean_medical_record (.nonStr "list") :=
  clean_medical_record_deterministic (.nonStr "list") (.nonStr "list") rfl

/-- C4: a birth value of at least 8 characters is reformatted so that
its first 8 characters become a hyphenated form of a 4-character year,
2-character month and 2-character day, and a shorter value passes
through unchanged. -/
theorem birth_value_format (s : String) :
    (8 ≤ s.data.length →
      ∃ y m d : List Char, y.length = 4 ∧ m.length = 2 ∧ d.length = 2 ∧
        y ++ m ++ d = s.data.take 8 ∧
        formatBirthValue s = String.mk y ++ "-" ++ String.mk m ++ "-" ++ String.mk d) ∧
    (s.data.length < 8 → formatBirthValue s = s) := by
  constructor
  · intro h
    refine ⟨s.data.take 4, (s.data.drop 4).take 2, (s.data.drop 6).take 2,
      ?_, ?_, ?_, ?_, ?_⟩
    · rw [List.length_take]; omega
    · rw [List.length_take, List.length_drop]; omega
    · rw [List.length_take, List.length_drop]; omega
    · have h1 : s.data.take 8 = s.data.take 4 ++ (s.data.drop 4).take 4 :=
        List.take_add s.data 4 4
      have h2 : (s.data.drop 4).take 4 =
          (s.data.drop 4).take 2 ++ ((s.data.drop 4).drop 2).take 2 :=
        List.take_add (s.data.drop 4) 2 2
      have h3 : (s.data.drop 4).drop 2 = s.data.drop 6 := by
        rw [List.drop_drop]
      rw [h1, h2, h3, List.append_assoc]
    · rw [formatBirthValue, if_pos h]
  · intro h
    rw [formatBirthValue, if_neg (by omega)]

/-- Witness for C4: the spec examples 19850304 and 1985. -/
theorem birth_value_format_witness :
    (∃ y m d : List Char, y.length = 4 ∧ m.length = 2 ∧ d.length = 2 ∧
      y ++ m ++ d = ("19850304" : String).data.take 8 ∧
      formatBirthValue "19850304" =
        String.mk y ++ "-" ++ String.mk m ++ "-" ++ String.mk d) ∧
    formatBirthValue "1985" = "1985" :=
  ⟨(birth_value_format "19850304").1 (by decide),
   (birth_value_format "1985").2 (by decide)⟩

/-- C2: identity extraction returns exactly the sentinel tuple when
the recordTarget patientRole lookup finds nothing, and more generally
whenever any dereference along the fixed traversal path fails, all
partial results being discarded. -/
theorem extract_metadata_sentinel_on_absence (root : XElem) :
    (findRecordTargetPatientRole root = none →
      extract_metadata root = ("Unknown", "Parse Error", "Unknown", "Unknown")) ∧
    (extract_metadata_inner root = none →
      extract_metadata root = ("Unknown", "Parse Error", "Unknown", "Unknown")) := by
  constructor
  · intro h
    simp [extract_metadata, extract_metadata_inner, h, sentinelIdentity]
  · intro h
    simp [extract_metadata, h, sentinelIdentity]

/-- Witness for C2: a document with no patientRole subtree at all. -/
theorem extract_metadata_sentinel_witness :
    extract_metadata c2doc = ("Unknown", "Parse Error", "Unknown", "Unknown") :=
  (extract_metadata_sentinel_on_absence c2doc).1 (by rfl)

/-- C7: whenever no section qualifies for emission, in particular when
there is no section element at all, flattening returns exactly the
no-sections sentinel, and that sentinel differs from every
parse-failure diagnostic the flattener can return. -/
theorem flatten_no_sections_sentinel (root : XElem) :
    ((findAllElem "section" (stripNsElem root)).filterMap processSection = [] →
      flattenTree root = "No structured clinical sections found.") ∧
    ∀ raw err, clean_medical_record (.str raw (.error err)) ≠
      "No structured clinical sections found." := by
  constructor
  · intro h
    simp [flattenTree, flattenStripped, h]
  · intro raw err
    simp only [clean_medical_record]
    exact parse_error_ne_sentinel err

/-- Witness for C7: a well-formed document with zero sections. -/
theorem flatten_no_sections_witness :
    flattenTree c7doc = "No structured clinical sections found." :=
  (flatten_no_sections_sentinel c7doc).1 (by rfl)

/-- Counterexample to C3: a document whose only section carries a
non-empty title one level below a wrapper child. The claim predicts a
block headed by that title; the code, whose title lookup inspects only
direct children, skips the section and returns the no-sections
sentinel instead. -/
theorem flatten_skips_nested_title :
    flattenTree c3doc = "No structured clinical sections found." ∧
    flattenTree c3doc ≠ "### X\nhello\n" := by
  have h : flattenTree c3doc = "No structured clinical sections found." := rfl
  refine ⟨h, ?_⟩
  rw [h]
  decide

/-- C3 as amended: the flattener uses a title element found as a
direct child of the section, upper-cased and trimmed, as the heading,
and skips the section entirely exactly when that direct title child is
absent or its text is empty. -/
theorem section_title_direct_child (sec : XElem) :
    (processSection sec = none ↔
      findChild "title" sec.children = none ∨
      ∃ t, findChild "title" sec.children = some t ∧
        (t.text = none ∨ t.text = some "")) ∧
    (∀ t s, findChild "title" sec.children = some t → t.text = some s → s ≠ "" →
      processSection sec =
        some ("### " ++ pyStrip (pyUpper s) ++ "\n" ++ sectionBody sec ++ "\n")) := by
  constructor
  · constructor
    · intro h
      cases hf : findChild "title" sec.children with
      | none => exact Or.inl rfl
      | some t =>
        refine Or.inr ⟨t, rfl, ?_⟩
        cases htx : t.text with
        | none => exact Or.inl rfl
        | some s =>
          refine Or.inr ?_
          by_cases hs : s = ""
          · rw [hs]
          · simp only [processSection, hf, htx, if_neg hs] at h
            exact absurd h (by simp)
    · intro h
      rcases h with h | ⟨t, ht, htx | htx⟩
      · simp only [processSection, h]
      · simp only [processSection, ht, htx]
      · simp [processSection, ht, htx]
  · intro t s hf htx hs
    simp only [processSection, hf, htx, if_neg hs]

/-- Witness for the amended C3 at a concrete titled section. -/
theorem section_title_direct_child_witness :
    processSection (el "section" (two (elT "title" "A") (elT "text" "x"))) =
      some "### A\nx\n" := by
  rw [(section_title_direct_child
    (el "section" (two (elT "title" "A") (elT "text" "x")))).2
    (elT "title" "A") "A" rfl rfl (by decide)]
  decide

/-- C6: a section with a non-empty title and no direct text child is
emitted with the literal substitute body. -/
theorem no_text_child_body (sec t : XElem) (s : String)
    (htext : findChild "text" sec.children = none)
    (htitle : findChild "title" sec.children = some t)
    (htx : t.text = some s) (hs : s ≠ "") :
    processSection sec =
      some ("### " ++ pyStrip (pyUpper s) ++ "\n" ++ "No narrative text." ++ "\n") := by
  simp only [processSection, htitle, htx, if_neg hs, sectionBody, htext]

/-- Witness for C6: a titled section with no text child. -/
theorem no_text_child_body_witness :
    processSection c6sec = some "### ALLERGIES\nNo narrative text.\n" := by
  rw [no_text_child_body c6sec (elT "title" "  Allergies ") "  Allergies "
    rfl rfl rfl (by decide)]
  decide

/-- C10: a section with a non-empty title whose direct text child
collects only whitespace is emitted with an empty body, not with the
no-narrative substitute, which is reserved for an absent text child. -/
theorem whitespace_text_empty_body (sec t tn : XElem) (s : String)
    (htitle : findChild "title" sec.children = some t)
    (htx : t.text = some s) (hs : s ≠ "")
    (htext : findChild "text" sec.children = some tn)
    (hws : ∀ c ∈ (elemItertext tn).data, pyIsSpace c = true) :
    processSection sec =
      some ("### " ++ pyStrip (pyUpper s) ++ "\n" ++ "" ++ "\n") ∧
    processSection sec ≠
      some ("### " ++ pyStrip (pyUpper s) ++ "\n" ++ "No narrative text." ++ "\n") := by
  have hbody : sectionBody sec = "" := by
    simp only [sectionBody, htext]
    exact collapseWs_of_all_space _ hws
  have h1 : processSection sec =
      some ("### " ++ pyStrip (pyUpper s) ++ "\n" ++ "" ++ "\n") := by
    simp only [processSection, htitle, htx, if_neg hs, hbody]
  refine ⟨h1, ?_⟩
  intro h2
  have hB := Option.some.inj (h1.symm.trans h2)
  have hlen := congrArg String.length hB
  simp only [String.length_append] at hlen
  have e0 : ("" : String).length = 0 := rfl
  have e2 : ("No narrative text." : String).length = 18 := rfl
  rw [e0, e2] at hlen
  omega

/-- Witness for C10: a titled section whose text child holds only
whitespace characters. -/
theorem whitespace_text_empty_body_witness :
    processSection c10sec = some "### VITALS\n\n" ∧
    processSection c10sec ≠ some "### VITALS\nNo narrative text.\n" := by
  have h := whitespace_text_empty_body c10sec (elT "title" "Vitals")
    (elT "text" "   \n\t ") "Vitals" rfl rfl (by decide) rfl (by decide)
  refine ⟨by rw [h.1]; decide, ?_⟩
  intro hc
  exact h.2 (hc.trans (by decide))

/-- Counterexample to C5: a document whose identity path is complete
except that the name node has no family child. The claim predicts the
rest of the name is still extracted with an empty family part, giving
the full name of the single given fragment Ada; the code dereferences
the absent family node and the whole record degrades to the sentinel. -/
theorem family_absent_degrades_to_sentinel :
    extract_metadata cexDoc = ("Unknown", "Parse Error", "Unknown", "Unknown") ∧
    (extract_metadata cexDoc).2.1 ≠ "Ada " := by
  have h : extract_metadata cexDoc =
      ("Unknown", "Parse Error", "Unknown", "Unknown") := rfl
  refine ⟨h, ?_⟩
  rw [h]
  decide

/-- C5 as amended: the full name space-joins all given fragments and
appends the family text after a space; a family element present with
no text contributes the empty string, while an absent family element
degrades the whole extraction to the sentinel identity. -/
theorem full_name_from_given_and_family (root pr pat nm : XElem)
    (hpr : findRecordTargetPatientRole root = some pr)
    (hpat : findChild (v3 "patient") pr.children = some pat)
    (hnm : findChild (v3 "name") pat.children = some nm) :
    (∀ fam bt, findChild (v3 "family") nm.children = some fam →
      findChild (v3 "birthTime") pat.children = some bt →
      (extract_metadata root).2.1 =
        String.intercalate " " (givenTexts nm) ++ " " ++ fam.text.getD "") ∧
    (findChild (v3 "family") nm.children = none →
      extract_metadata root = ("Unknown", "Parse Error", "Unknown", "Unknown")) := by
  constructor
  · intro fam bt hfam hbt
    simp [extract_metadata, extract_metadata_inner, hpr, hpat, hnm, hfam, hbt]
  · intro hfam
    simp [extract_metadata, extract_metadata_inner, hpr, hpat, hnm, hfam,
      sentinelIdentity]

/-- Witness for the amended C5: one given fragment and a textless
family element give the full name Ada followed by a space. -/
theorem full_name_witness :
    (extract_metadata adaDoc).2.1 = "Ada " := by
  rw [(full_name_from_given_and_family adaDoc adaPatientRole adaPatient adaName
    rfl rfl rfl).1 adaFamily adaBirth rfl rfl]
  decide

/-- C8: flattening is namespace-invariant: qualifying every tag of a
plain-named tree with one namespace uri or with another, or with none
at all, yields identical flattened output, because tags are stripped
over the entire tree before section lookup. -/
theorem flatten_namespace_invariant (u1 u2 : String) (root : XElem)
    (h1 : '\x7d' ∉ u1.data) (h2 : '\x7d' ∉ u2.data)
    (hr : noBraceElem root = true) :
    flattenTree (applyNsElem u1 root) = flattenTree (applyNsElem u2 root) ∧
    flattenTree (applyNsElem u1 root) = flattenTree root := by
  unfold flattenTree
  rw [stripNs_applyNs_elem u1 h1 root, stripNs_applyNs_elem u2 h2 root,
    stripNs_id_elem root hr]
  exact ⟨rfl, rfl⟩

/-- Witness for C8: the same one-section document under the hl7 v3
namespace, under another namespace, and under none. -/
theorem flatten_namespace_invariant_witness :
    flattenTree (applyNsElem "urn:hl7-org:v3" c8doc) =
      flattenTree (applyNsElem "urn:other" c8doc) ∧
    flattenTree (applyNsElem "urn:hl7-org:v3" c8doc) = flattenTree c8doc :=
  flatten_namespace_invariant "urn:hl7-org:v3" "urn:other" c8doc
    (by decide) (by decide) (by decide)
